import Mathlib

/-!
Verification development for the `@zakkudo/fetch` request/response
orchestration layer (`src/index.js`, `src/HttpError.js`).

The JavaScript code is shallowly embedded: JavaScript values appearing in
the pipeline are modelled by the inductive type `JVal`; promise settlement
of a transform step is modelled by `Except JVal JVal` (`Except.ok` for a
resolved value, `Except.error` for a synchronous throw or a rejected
promise); the overall settlement of one invocation is an `Outcome`
(`resolved`, `rejected`, or `pending` for a promise that never settles).
Collaborators declared out of scope by the module (the URL builder and the
network transport) are injected as explicit functions.
-/

/-- Model of the JavaScript values flowing through the pipeline.
Objects are association lists of own enumerable properties in insertion
order.  `jerr` is an opaque `Error` instance (identified by a tag),
`jhttpErr` is an `HttpError` instance as built by the constructor in
`src/HttpError.js` (fields that the constructor skipped are `none`), and
`jchainErr` is the wrapping `Error` created by the final `catch` of
`_fetch` for a broken error-transform chain, carrying the resolved URL
interpolated into its message.  `jformData` is an opaque `FormData`
instance. -/
inductive JVal where
  | jnull : JVal
  | jbool (b : Bool) : JVal
  | jnum (n : Int) : JVal
  | jstr (s : String) : JVal
  | jobj (fields : List (String × JVal)) : JVal
  | jformData (tag : Nat) : JVal
  | jerr (tag : Nat) : JVal
  | jhttpErr (status statusText : JVal) (message : String)
      (url headers response : Option JVal) : JVal
  | jchainErr (url : String) : JVal
deriving Repr

/-- Model of `value instanceof Error`: `HttpError extends Error`, the wrapping
chain error is constructed with `new Error(...)`, and `jerr` stands for an
arbitrary `Error` instance. -/
def instanceofError : JVal → Bool
  | JVal.jerr _ => true
  | JVal.jhttpErr _ _ _ _ _ _ => true
  | JVal.jchainErr _ => true
  | _ => false

/-- JavaScript truthiness of a modelled value. -/
def truthy : JVal → Bool
  | JVal.jnull => false
  | JVal.jbool b => b
  | JVal.jnum n => n != 0
  | JVal.jstr s => s != ""
  | _ => true

/-- Model of the JavaScript test `typeof v` being the string type. -/
def isStringVal : JVal → Bool
  | JVal.jstr _ => true
  | _ => false

/-- Model of `v instanceof FormData`. -/
def isFormDataVal : JVal → Bool
  | JVal.jformData _ => true
  | _ => false

/-- Property read on an object: first binding of the key wins. -/
def getField : List (String × JVal) → String → Option JVal
  | [], _ => none
  | (k, v) :: rest, key => if k = key then some v else getField rest key

/-- Property write on an object: updates the first binding in place,
appends when the key is absent (JavaScript assignment order). -/
def setField : List (String × JVal) → String → JVal → List (String × JVal)
  | [], key, v => [(key, v)]
  | (k, w) :: rest, key, v =>
      if k = key then (k, v) :: rest else (k, w) :: setField rest key v

/-- Model of `delete obj[key]`. -/
def removeField : List (String × JVal) → String → List (String × JVal)
  | [], _ => []
  | (k, w) :: rest, key =>
      if k = key then removeField rest key else (k, w) :: removeField rest key

/-- Fields of a value when it is an object, `[]` otherwise. -/
def objFields : JVal → List (String × JVal)
  | JVal.jobj f => f
  | _ => []

/-- The characters of `s` before the first `;`: the `[0]` element of
JavaScript's `s.split(';')` (the whole string when no `;` occurs). -/
def takeUntilSemicolon : List Char → List Char
  | [] => []
  | c :: rest => if c = ';' then [] else c :: takeUntilSemicolon rest

/-- The `s.split(';')[0]` operation as a string. -/
def headSplitSemicolon (s : String) : String :=
  String.mk (takeUntilSemicolon s.toList)

/-- JSON string escaping for the characters the model tracks (quote and
backslash). -/
def jsonEscapeChar (c : Char) : String :=
  if c = '"' then "\\\"" else if c = '\\' then "\\\\" else String.singleton c

/-- A JSON string literal for `s`. -/
def jsonQuote (s : String) : String :=
  "\"" ++ String.join (s.toList.map jsonEscapeChar) ++ "\""

mutual

/-- Model of `JSON.stringify` on the value fragment the pipeline
manipulates.  Exotic instances (`FormData`, `Error`) serialize to the
empty object, as they expose no own enumerable data properties. -/
def jsonStringify : JVal → String
  | JVal.jnull => "null"
  | JVal.jbool true => "true"
  | JVal.jbool false => "false"
  | JVal.jnum n => toString n
  | JVal.jstr s => jsonQuote s
  | JVal.jobj fields => "\x7b" ++ jsonStringifyFields fields ++ "\x7d"
  | JVal.jformData _ => "\x7b\x7d"
  | JVal.jerr _ => "\x7b\x7d"
  | JVal.jhttpErr _ _ _ _ _ _ => "\x7b\x7d"
  | JVal.jchainErr _ => "\x7b\x7d"

/-- Comma-separated `"key":value` members of a JSON object body. -/
def jsonStringifyFields : List (String × JVal) → String
  | [] => ""
  | [(k, v)] => jsonQuote k ++ ":" ++ jsonStringify v
  | (k, v) :: rest =>
      jsonQuote k ++ ":" ++ jsonStringify v ++ "," ++ jsonStringifyFields rest

end

/-- Embedding of `getContentType` (`src/index.js:9-14`):
`(options.headers || \x7b\x7d)['Content-Type'] || ''`, truncated at the
first `;`.  A `headers` value that is not an object, or a `Content-Type`
value that is not a string, contributes the empty string. -/
def getContentType (options : List (String × JVal)) : String :=
  let headers : List (String × JVal) :=
    match getField options "headers" with
    | some (JVal.jobj h) => h
    | _ => []
  let contentType : String :=
    match getField headers "Content-Type" with
    | some (JVal.jstr s) => s
    | _ => ""
  headSplitSemicolon contentType

/-- Embedding of `stringifyBody` (`src/index.js:19-34`): when a `body` key
holds a non-string value and the effective content type is exactly
`application/json`, exactly `text/plain`, or empty/absent, the body is
replaced by its `JSON.stringify` text; otherwise the options pass through
unchanged. -/
def stringifyBody (options : List (String × JVal)) : List (String × JVal) :=
  let contentType := getContentType options
  match getField options "body" with
  | some b =>
      if isStringVal b then options
      else
        if (contentType == "application/json" || contentType == "text/plain")
            || contentType == "" then
          setField options "body" (JVal.jstr (jsonStringify b))
        else options
  | none => options

/-- Embedding of `removeContentTypeIfFormData` (`src/index.js:36-49`):
when the effective content type is `multipart/form-data` and the body is a
`FormData` instance, the `Content-Type` header is deleted from a copy of
the headers. -/
def removeContentTypeIfFormData (options : List (String × JVal)) :
    List (String × JVal) :=
  let contentType := getContentType options
  let bodyIsFormData :=
    match getField options "body" with
    | some b => isFormDataVal b
    | none => false
  if contentType == "multipart/form-data" && bodyIsFormData then
    let headers : List (String × JVal) :=
      match getField options "headers" with
      | some (JVal.jobj h) => h
      | _ => []
    setField options "headers" (JVal.jobj (removeField headers "Content-Type"))
  else options

/-- JavaScript string coercion (template-literal interpolation) for the
modelled values.  An `HttpError` stringifies through its overridden
`toString` (`src/HttpError.js:62-64`): `HttpError: ${status} ${message}`. -/
def jsToString : JVal → String
  | JVal.jnull => "null"
  | JVal.jbool true => "true"
  | JVal.jbool false => "false"
  | JVal.jnum n => toString n
  | JVal.jstr s => s
  | JVal.jobj _ => "[object Object]"
  | JVal.jformData _ => "[object FormData]"
  | JVal.jerr _ => "Error"
  | JVal.jhttpErr status _ message _ _ _ =>
      "HttpError: " ++ jsToString status ++ " " ++ message
  | JVal.jchainErr u =>
      "Error: Tranform error threw an exception for " ++ u ++
        " which will break the transform chain. This can cause unexpected results."

/-- Embedding of the `HttpError` constructor (`src/HttpError.js:20-57`):
`message` is `` `${statusText} <${url}>` `` when `url` is truthy and
`` `${statusText}` `` otherwise; the `url`, `headers` and `response`
fields are only assigned when the corresponding argument is truthy. -/
def mkHttpError (status statusText url headers response : JVal) : JVal :=
  JVal.jhttpErr status statusText
    (if truthy url then
        jsToString statusText ++ " <" ++ jsToString url ++ ">"
      else jsToString statusText)
    (if truthy url then some url else none)
    (if truthy headers then some headers else none)
    (if truthy response then some response else none)

/-- The `status` field of an `HttpError` instance. -/
def httpStatusField : JVal → Option JVal
  | JVal.jhttpErr status _ _ _ _ _ => some status
  | _ => none

/-- The `statusText` field of an `HttpError` instance. -/
def httpStatusTextField : JVal → Option JVal
  | JVal.jhttpErr _ statusText _ _ _ _ => some statusText
  | _ => none

/-- The `url` field of an `HttpError` instance (`none` when the
constructor skipped it). -/
def httpUrlField : JVal → Option JVal
  | JVal.jhttpErr _ _ _ url _ _ => url
  | _ => none

/-- The `headers` field of an `HttpError` instance (`none` when the
constructor skipped it). -/
def httpHeadersField : JVal → Option JVal
  | JVal.jhttpErr _ _ _ _ headers _ => headers
  | _ => none

/-- The `response` field of an `HttpError` instance (`none` when the
constructor skipped it). -/
def httpResponseField : JVal → Option JVal
  | JVal.jhttpErr _ _ _ _ _ response => response
  | _ => none

/-- The inherited `message` property of an error instance. -/
def errMessage : JVal → String
  | JVal.jhttpErr _ _ message _ _ _ => message
  | JVal.jchainErr u =>
      "Tranform error threw an exception for " ++ u ++
        " which will break the transform chain. This can cause unexpected results."
  | _ => ""

/-- The raw transport response (`RawResponse` collaborator contract):
`ok`, status metadata, the result of `headers.get('Content-Type')`
(`none` models `null`), and the settlement of `json()` / `text()`. -/
structure RawResponse where
  ok : Bool
  status : JVal
  statusText : JVal
  url : JVal
  headers : JVal
  contentTypeGet : Option String
  jsonResult : Except JVal JVal
  textResult : Except JVal JVal

/-- The response's declared content type:
`(response.headers.get('Content-Type') || '').split(';')[0]`
(`src/index.js:183-185`). -/
def responseContentType (r : RawResponse) : String :=
  headSplitSemicolon (r.contentTypeGet.getD "")

/-- Embedding of `conditionallyThrowHttpError` (`src/index.js:102-112`):
a non-`ok` response raises an `HttpError` built from the response's
status metadata and the decoded payload; an `ok` response passes the
payload through. -/
def conditionallyThrowHttpError (r : RawResponse) (payload : JVal) :
    Except JVal JVal :=
  if r.ok then Except.ok payload
  else Except.error (mkHttpError r.status r.statusText r.url r.headers payload)

/-- Embedding of the response interpretation step (`src/index.js:182-195`):
JSON declared content type uses `json()`, recovering with `null` on a
decode failure of an `ok` response and re-raising the decode failure
otherwise; any other content type uses `text()`; both paths finish with
`conditionallyThrowHttpError`. -/
def interpretResponse (r : RawResponse) : Except JVal JVal :=
  if responseContentType r = "application/json" then
    match r.jsonResult with
    | Except.ok v => conditionallyThrowHttpError r v
    | Except.error e =>
        if r.ok then conditionallyThrowHttpError r JVal.jnull
        else Except.error e
  else
    match r.textResult with
    | Except.ok v => conditionallyThrowHttpError r v
    | Except.error e => Except.error e

/-- A request transform: takes the accumulated options value, returns a
value or a promise of one (`Except.error` = synchronous throw or
rejection). -/
def ReqTransform : Type := JVal → Except JVal JVal

/-- A response or error transform: takes
`(value, String(_url), transformedOptions)`. -/
def Transform3 : Type := JVal → String → JVal → Except JVal JVal

/-- Settlement of one whole `_fetch` invocation.  `pending` models a
promise that never settles. -/
inductive Outcome where
  | resolved (v : JVal) : Outcome
  | rejected (v : JVal) : Outcome
  | pending : Outcome

/-- Embedding of `ensureList` (`src/index.js:72-80`) specialised to the
three ways a transform option is supplied: absent (or falsy) gives the
empty chain, a bare function a one-element chain, an array its elements
in order. -/
inductive MaybeList (α : Type) where
  | absent : MaybeList α
  | one (f : α) : MaybeList α
  | many (fs : List α) : MaybeList α

/-- The `ensureList` normalisation. -/
def ensureList {α : Type} : MaybeList α → List α
  | MaybeList.absent => []
  | MaybeList.one f => [f]
  | MaybeList.many fs => fs

/-- Lifts a total built-in step into a request transform. -/
def liftReq (f : JVal → JVal) : ReqTransform := fun v => Except.ok (f v)

/-- Step `stringifyBody` applied to the accumulated value: the source reads
properties off the accumulator, which is meaningful when it is an object;
a non-object accumulator passes through. -/
def stringifyBodyV : JVal → JVal
  | JVal.jobj f => JVal.jobj (stringifyBody f)
  | v => v

/-- Step `removeContentTypeIfFormData` applied to the accumulated value. -/
def removeContentTypeIfFormDataV : JVal → JVal
  | JVal.jobj f => JVal.jobj (removeContentTypeIfFormData f)
  | v => v

/-- Sequential promise reduction of the request chain
(`src/index.js:60-66`): step `n+1` runs only after step `n` resolved; a
throw or rejection aborts the fold. -/
def runRequestChain : List ReqTransform → JVal → Except JVal JVal
  | [], v => Except.ok v
  | fn :: rest, v =>
      match fn v with
      | Except.ok w => runRequestChain rest w
      | Except.error e => Except.error e

/-- Sequential promise reduction of the response chain
(`src/index.js:196-204`): each step receives
`(value, String(_url), transformedOptions)`. -/
def runResponseChain : List Transform3 → String → JVal → JVal →
    Except JVal JVal
  | [], _, _, v => Except.ok v
  | fn :: rest, u, o, v =>
      match fn v u o with
      | Except.ok w => runResponseChain rest u o w
      | Except.error e => Except.error e

/-- Embedding of the error-recovery reduction (`src/index.js:205-217`)
instrumented with the invocation trace.  The fold starts from
`Promise.resolve(reason)`; each step first awaits the accumulator (so an
upstream throw skips the rest), then invokes the transform only when the
accumulated value is an `Error` instance, passing it through unchanged
otherwise.  The trace records, in execution order, the 0-based position of
every transform actually invoked together with the error argument it
received. -/
def runTransformError (fns : List Transform3) (u : String) (o : JVal)
    (idx : Nat) (v : JVal) : Except JVal JVal × List (Nat × JVal) :=
  match fns with
  | [] => (Except.ok v, [])
  | fn :: rest =>
      if instanceofError v then
        match fn v u o with
        | Except.ok w =>
            let r := runTransformError rest u o (idx + 1) w
            (r.1, (idx, v) :: r.2)
        | Except.error e => (Except.error e, [(idx, v)])
      else runTransformError rest u o (idx + 1) v

/-- Embedding of the settlement of the error path
(`src/index.js:219-232`): when the reduction resolves, an `Error`-kind
final value rejects the operation and any other value resolves it; when
the reduction itself was interrupted by a throw or rejection inside a
transform, the operation rejects with the fresh wrapping `Error` naming
the resolved URL. -/
def settleTransformError (fns : List Transform3) (u : String) (o v : JVal) :
    Outcome :=
  match (runTransformError fns u o 0 v).1 with
  | Except.ok w =>
      if instanceofError w then Outcome.rejected w else Outcome.resolved w
  | Except.error _ => Outcome.rejected (JVal.jchainErr u)

/-- The caller's configuration, with the three transform options held
separately from the plain fields (the code destructures them off the
cloned object in `applyCustomOptions`, `src/index.js:85-97`). -/
structure Config where
  fields : List (String × JVal)
  transformRequest : MaybeList ReqTransform
  transformResponse : MaybeList Transform3
  transformError : MaybeList Transform3

/-- The injected collaborators: `new Url(url, params, \x7bunsafe\x7d)`
(raising = `Except.error`) and the global `fetch` transport. -/
structure Collaborators where
  buildUrl : String → JVal → Option JVal → Except JVal String
  transport : String → JVal → Except JVal RawResponse

/-- The full request chain: user `transformRequest` steps, then the
built-in body serialization and form-data cleanup
(`src/index.js:60-63`). -/
def requestChainOf (cfg : Config) : List ReqTransform :=
  ensureList cfg.transformRequest ++
    [liftReq stringifyBodyV, liftReq removeContentTypeIfFormDataV]

/-- Destructuring `const \x7bparams = \x7b\x7d, unsafe, ..._options\x7d =
transformedOptions` — the `params` value (defaulting to the empty
object when absent). -/
def paramsOf (topts : JVal) : JVal :=
  (getField (objFields topts) "params").getD (JVal.jobj [])

/-- The destructured `unsafe` value (`none` when absent). -/
def noEscapeOf (topts : JVal) : Option JVal :=
  getField (objFields topts) "unsafe"

/-- The `_options` rest object handed to the transport: the transformed
options without `params` and `unsafe`. -/
def transportInitOf (topts : JVal) : JVal :=
  JVal.jobj (removeField (removeField (objFields topts) "params") "unsafe")

/-- Embedding of `_fetch` (`src/index.js:155-235`).  The deep clone at
pipeline entry is the identity on values.  A failure of the request
transform chain leaves the returned promise unsettled: the promise
produced by `transformRequestPromise.then(...)` has no rejection handler,
so neither `resolve` nor `reject` is ever called.  A URL-construction
failure calls `reject(e)` directly.  Failures of the transport, of the
response interpretation and of the response transform chain reach the
`catch` that runs the error-recovery reduction. -/
def fetchModel (c : Collaborators) (url : String) (cfg : Config) : Outcome :=
  match runRequestChain (requestChainOf cfg) (JVal.jobj cfg.fields) with
  | Except.error _ => Outcome.pending
  | Except.ok topts =>
      match c.buildUrl url (paramsOf topts) (noEscapeOf topts) with
      | Except.error e => Outcome.rejected e
      | Except.ok uStr =>
          match c.transport uStr (transportInitOf topts) with
          | Except.error e =>
              settleTransformError (ensureList cfg.transformError) uStr topts e
          | Except.ok resp =>
              match interpretResponse resp with
              | Except.error e =>
                  settleTransformError (ensureList cfg.transformError) uStr
                    topts e
              | Except.ok payload =>
                  match runResponseChain (ensureList cfg.transformResponse)
                      uStr topts payload with
                  | Except.error e =>
                      settleTransformError (ensureList cfg.transformError) uStr
                        topts e
                  | Except.ok result => Outcome.resolved result

/-- Once the accumulated value is not an `Error` instance, the remaining
error transforms are skipped: none is invoked and the value passes
through unchanged. -/
theorem runTransformError_skip (fns : List Transform3) (u : String)
    (o : JVal) (idx : Nat) (v : JVal) (hv : instanceofError v = false) :
    runTransformError fns u o idx v = (Except.ok v, []) := by
  induction fns generalizing idx with
  | nil => rfl
  | cons fn rest ih => simp [runTransformError, hv, ih]

/-- Every invocation recorded by the error-recovery reduction concerns a
transform at a position within the chain. -/
theorem runTransformError_trace_bound (fns : List Transform3) (u : String)
    (o : JVal) (idx : Nat) (v : JVal) :
    ∀ j x, (j, x) ∈ (runTransformError fns u o idx v).2 →
      idx ≤ j ∧ j < idx + fns.length := by
  induction fns generalizing idx v with
  | nil => intro j x h; simp [runTransformError] at h
  | cons fn rest ih =>
      intro j x h
      simp only [List.length_cons]
      by_cases hv : instanceofError v = true
      · rcases hf : fn v u o with e | w
        · simp [runTransformError, hv, hf] at h
          obtain ⟨hj, hx⟩ := h
          subst hj; omega
        · simp [runTransformError, hv, hf] at h
          rcases h with ⟨hj, hx⟩ | h
          · subst hj; omega
          · have h2 := ih (idx + 1) w j x h
            omega
      · simp only [Bool.not_eq_true] at hv
        simp only [runTransformError, hv, Bool.false_eq_true, if_false] at h
        have h2 := ih (idx + 1) v j x h
        omega

/-- Splitting the error-recovery reduction at a chain decomposition: when
the front part of the chain resolves, the back part continues from its
value, and the traces concatenate. -/
theorem runTransformError_append_ok (xs ys : List Transform3) (u : String)
    (o : JVal) (idx : Nat) (v w : JVal) (tr : List (Nat × JVal))
    (h : runTransformError xs u o idx v = (Except.ok w, tr)) :
    runTransformError (xs ++ ys) u o idx v =
      ((runTransformError ys u o (idx + xs.length) w).1,
        tr ++ (runTransformError ys u o (idx + xs.length) w).2) := by
  induction xs generalizing idx v tr with
  | nil =>
      simp only [runTransformError, Prod.mk.injEq, Except.ok.injEq] at h
      obtain ⟨rfl, rfl⟩ := h
      simp
  | cons fn rest ih =>
      by_cases hv : instanceofError v = true
      · rcases hf : fn v u o with e | w'
        · simp [runTransformError, hv, hf] at h
        · rcases hres : runTransformError rest u o (idx + 1) w' with ⟨res1, tr2⟩
          simp only [runTransformError, hv, if_true, hf, hres, Prod.mk.injEq] at h
          obtain ⟨rfl, rfl⟩ := h
          have hstep := ih (idx + 1) w' tr2 hres
          have harith : idx + 1 + rest.length = idx + (rest.length + 1) := by
            omega
          rw [harith] at hstep
          simp only [List.cons_append, runTransformError, hv, if_true, hf,
            List.length_cons, Prod.mk.injEq, List.append_eq]
          exact ⟨by rw [hstep], by rw [hstep]⟩
      · simp only [Bool.not_eq_true] at hv
        simp only [runTransformError, hv, Bool.false_eq_true, if_false] at h
        have hstep := ih (idx + 1) v tr h
        have harith : idx + 1 + rest.length = idx + (rest.length + 1) := by
          omega
        rw [harith] at hstep
        simp only [List.cons_append, runTransformError, hv, Bool.false_eq_true,
          if_false, List.length_cons]
        exact hstep

/-- Splitting the error-recovery reduction at a chain decomposition: when
the front part of the chain is interrupted, the back part never runs. -/
theorem runTransformError_append_err (xs ys : List Transform3) (u : String)
    (o : JVal) (idx : Nat) (v e : JVal) (tr : List (Nat × JVal))
    (h : runTransformError xs u o idx v = (Except.error e, tr)) :
    runTransformError (xs ++ ys) u o idx v = (Except.error e, tr) := by
  induction xs generalizing idx v tr with
  | nil => simp [runTransformError] at h
  | cons fn rest ih =>
      by_cases hv : instanceofError v = true
      · rcases hf : fn v u o with e' | w'
        · simp only [runTransformError, hv, if_true, hf, Prod.mk.injEq,
            Except.error.injEq] at h
          obtain ⟨rfl, rfl⟩ := h
          simp [List.cons_append, runTransformError, hv, hf]
        · rcases hres : runTransformError rest u o (idx + 1) w' with ⟨res1, tr2⟩
          simp only [runTransformError, hv, if_true, hf, hres, Prod.mk.injEq] at h
          obtain ⟨rfl, rfl⟩ := h
          have hstep := ih (idx + 1) w' tr2 hres
          simp [List.cons_append, runTransformError, hv, hf, hstep]
      · simp only [Bool.not_eq_true] at hv
        simp only [runTransformError, hv, Bool.false_eq_true, if_false] at h
        have hstep := ih (idx + 1) v tr h
        simp [List.cons_append, runTransformError, hv, hstep]

/-- The argument each error transform receives when every invoked
transform resolves: the original failure first, then each function's
output, stopping early at an interruption. -/
def chainArgs : List Transform3 → String → JVal → JVal → List JVal
  | [], _, _, _ => []
  | fn :: rest, u, o, v =>
      v :: (match fn v u o with
            | Except.ok w => chainArgs rest u o w
            | Except.error _ => [])

/-- The value produced by threading `v` through the chain, keeping the
input of the step at an interruption. -/
def chainLast : List Transform3 → String → JVal → JVal → JVal
  | [], _, _, v => v
  | fn :: rest, u, o, v =>
      match fn v u o with
      | Except.ok w => chainLast rest u o w
      | Except.error _ => v

/-- When the accumulated value is an `Error` instance and every transform
in the chain maps `Error` instances to `Error` instances, the reduction
invokes every transform once in order — the trace is exactly the chained
arguments, numbered consecutively — and resolves with the last output,
still an `Error` instance. -/
theorem runTransformError_allError (fns : List Transform3) (u : String)
    (o : JVal) (idx : Nat) (v : JVal) (hv : instanceofError v = true)
    (H : ∀ fn ∈ fns, ∀ x, instanceofError x = true →
        ∃ w, fn x u o = Except.ok w ∧ instanceofError w = true) :
    runTransformError fns u o idx v
      = (Except.ok (chainLast fns u o v),
          List.enumFrom idx (chainArgs fns u o v))
    ∧ instanceofError (chainLast fns u o v) = true := by
  induction fns generalizing idx v with
  | nil => simp [runTransformError, chainLast, chainArgs, hv]
  | cons fn rest ih =>
      obtain ⟨w, hfw, hw⟩ := H fn (List.mem_cons_self _ _) v hv
      have hrest := ih (idx + 1) w hw
        (fun g hg => H g (List.mem_cons_of_mem _ hg))
      refine ⟨?_, ?_⟩
      · simp [runTransformError, hv, hfw, chainLast, chainArgs, hrest.1,
          List.enumFrom]
      · simp [chainLast, hfw, hrest.2]

/-- Function `chainLast` distributes over a chain decomposition when the front
part maps `Error` instances to `Error` instances. -/
theorem chainLast_append (xs ys : List Transform3) (u : String) (o v : JVal)
    (hv : instanceofError v = true)
    (H : ∀ fn ∈ xs, ∀ x, instanceofError x = true →
        ∃ w, fn x u o = Except.ok w ∧ instanceofError w = true) :
    chainLast (xs ++ ys) u o v = chainLast ys u o (chainLast xs u o v) := by
  induction xs generalizing v with
  | nil => simp [chainLast]
  | cons fn rest ih =>
      obtain ⟨w, hfw, hw⟩ := H fn (List.mem_cons_self _ _) v hv
      simp [chainLast, hfw,
        ih w hw (fun g hg => H g (List.mem_cons_of_mem _ hg))]

/-- Function `chainArgs` distributes over a chain decomposition when the front
part maps `Error` instances to `Error` instances. -/
theorem chainArgs_append (xs ys : List Transform3) (u : String) (o v : JVal)
    (hv : instanceofError v = true)
    (H : ∀ fn ∈ xs, ∀ x, instanceofError x = true →
        ∃ w, fn x u o = Except.ok w ∧ instanceofError w = true) :
    chainArgs (xs ++ ys) u o v
      = chainArgs xs u o v ++ chainArgs ys u o (chainLast xs u o v) := by
  induction xs generalizing v with
  | nil => simp [chainArgs, chainLast]
  | cons fn rest ih =>
      obtain ⟨w, hfw, hw⟩ := H fn (List.mem_cons_self _ _) v hv
      simp [chainArgs, chainLast, hfw,
        ih w hw (fun g hg => H g (List.mem_cons_of_mem _ hg))]

/-- Under the same hypotheses every transform is invoked exactly once. -/
theorem chainArgs_length (fns : List Transform3) (u : String) (o v : JVal)
    (hv : instanceofError v = true)
    (H : ∀ fn ∈ fns, ∀ x, instanceofError x = true →
        ∃ w, fn x u o = Except.ok w ∧ instanceofError w = true) :
    (chainArgs fns u o v).length = fns.length := by
  induction fns generalizing v with
  | nil => rfl
  | cons fn rest ih =>
      obtain ⟨w, hfw, hw⟩ := H fn (List.mem_cons_self _ _) v hv
      simp [chainArgs, hfw,
        ih w hw (fun g hg => H g (List.mem_cons_of_mem _ hg))]

/-- C1: in every `transformError` chain in which the function at position
`k = pre.length` (0-based; function *k+1* in the claim's 1-indexed
counting) is reached in the propagating-error state and returns or
resolves to a non-`Error` value `w`, the functions after it are never
invoked — every trace entry concerns a position `≤ k` — the value passes
through the rest of the chain unchanged, and the whole operation resolves
with `w`, that function's return value. -/
theorem transformError_recovery_shortCircuit (pre post : List Transform3)
    (fk : Transform3) (u : String) (o reason input w : JVal)
    (h1 : (runTransformError pre u o 0 reason).1 = Except.ok input)
    (h2 : instanceofError input = true)
    (h3 : fk input u o = Except.ok w)
    (h4 : instanceofError w = false) :
    runTransformError (pre ++ fk :: post) u o 0 reason
      = (Except.ok w,
          (runTransformError pre u o 0 reason).2 ++ [(pre.length, input)])
    ∧ (∀ j x, (j, x) ∈ (runTransformError (pre ++ fk :: post) u o 0 reason).2 →
        j ≤ pre.length)
    ∧ settleTransformError (pre ++ fk :: post) u o reason
        = Outcome.resolved w := by
  have hpre : runTransformError pre u o 0 reason
      = (Except.ok input, (runTransformError pre u o 0 reason).2) := by
    rw [← h1]
  have happ := runTransformError_append_ok pre (fk :: post) u o 0 reason input
    (runTransformError pre u o 0 reason).2 hpre
  have hskip := runTransformError_skip post u o (pre.length + 1) w h4
  have hrun : runTransformError (fk :: post) u o (0 + pre.length) input
      = (Except.ok w, [(0 + pre.length, input)]) := by
    simp [runTransformError, h2, h3, hskip]
  have hmain : runTransformError (pre ++ fk :: post) u o 0 reason
      = (Except.ok w,
          (runTransformError pre u o 0 reason).2 ++ [(pre.length, input)]) := by
    rw [happ, hrun]
    simp
  refine ⟨hmain, ?_, ?_⟩
  · intro j x hmem
    rw [hmain] at hmem
    simp only [List.mem_append, List.mem_singleton, Prod.mk.injEq] at hmem
    rcases hmem with hmem | ⟨hj, hx⟩
    · have hb := runTransformError_trace_bound pre u o 0 reason j x hmem
      omega
    · omega
  · simp [settleTransformError, hmain, h4]

/-- Transform used by the C1 witness: keeps the error state. -/
def c1preFn : Transform3 := fun _ _ _ => Except.ok (JVal.jerr 1)

/-- Transform used by the C1 witness: recovers with a string. -/
def c1recoverFn : Transform3 := fun _ _ _ => Except.ok (JVal.jstr "recovered")

/-- Transform used by the C1 witness: would keep the error state, but
must never run. -/
def c1postFn : Transform3 := fun _ _ _ => Except.ok (JVal.jerr 2)

/-- Witness for C1 at a concrete three-function chain whose middle
function recovers. -/
theorem transformError_recovery_shortCircuit_witness :
    settleTransformError ([c1preFn] ++ c1recoverFn :: [c1postFn]) "u"
        JVal.jnull (JVal.jerr 0)
      = Outcome.resolved (JVal.jstr "recovered") :=
  (transformError_recovery_shortCircuit [c1preFn] [c1postFn] c1recoverFn "u"
    JVal.jnull (JVal.jerr 0) (JVal.jerr 1) (JVal.jstr "recovered")
    rfl rfl rfl rfl).2.2

/-- C2: for a non-empty `transformError` chain started on an `Error`-kind
failure, when every function maps `Error`-kind values to `Error`-kind
values, the operation rejects with the chained final value; the trace
shows every function invoked exactly once, in declaration order, with
consecutive positions; the first function receives the original failure;
and at every decomposition the function after the front part receives the
front part's output and returns the value the extended front part chains
to — in particular the rejection value is the last function's return
value. -/
theorem transformError_allErrorChain (fns : List Transform3) (u : String)
    (o reason : JVal)
    (hr : instanceofError reason = true)
    (hne : fns ≠ [])
    (H : ∀ fn ∈ fns, ∀ x, instanceofError x = true →
        ∃ w, fn x u o = Except.ok w ∧ instanceofError w = true) :
    settleTransformError fns u o reason
        = Outcome.rejected (chainLast fns u o reason)
    ∧ (runTransformError fns u o 0 reason).2
        = List.enumFrom 0 (chainArgs fns u o reason)
    ∧ (chainArgs fns u o reason).length = fns.length
    ∧ (chainArgs fns u o reason).head? = some reason
    ∧ (∀ p fi rest, fns = p ++ fi :: rest →
        (chainArgs fns u o reason).get? p.length
            = some (chainLast p u o reason)
        ∧ fi (chainLast p u o reason) u o
            = Except.ok (chainLast (p ++ [fi]) u o reason)) := by
  have hmain := runTransformError_allError fns u o 0 reason hr H
  refine ⟨?_, ?_, ?_, ?_, ?_⟩
  · simp [settleTransformError, hmain.1, hmain.2]
  · rw [hmain.1]
  · exact chainArgs_length fns u o reason hr H
  · obtain ⟨fn, rest, rfl⟩ := List.exists_cons_of_ne_nil hne
    obtain ⟨w, hfw, hw⟩ := H fn (List.mem_cons_self _ _) reason hr
    simp [chainArgs, hfw]
  · intro p fi rest hsplit
    subst hsplit
    have Hp : ∀ fn ∈ p, ∀ x, instanceofError x = true →
        ∃ w, fn x u o = Except.ok w ∧ instanceofError w = true :=
      fun g hg x hx => H g (List.mem_append_left _ hg) x hx
    have hlast := (runTransformError_allError p u o 0 reason hr Hp).2
    constructor
    · rw [chainArgs_append p (fi :: rest) u o reason hr Hp]
      have hlen := chainArgs_length p u o reason hr Hp
      rw [List.get?_append_right (by omega)]
      simp [hlen, chainArgs]
    · obtain ⟨w, hfw, hw⟩ := H fi (by simp) (chainLast p u o reason) hlast
      rw [chainLast_append p [fi] u o reason hr Hp]
      simp [chainLast, hfw]

/-- Transform used by the C2 witness: first error transform. -/
def c2fn1 : Transform3 := fun _ _ _ => Except.ok (JVal.jerr 1)

/-- Transform used by the C2 witness: second error transform. -/
def c2fn2 : Transform3 := fun _ _ _ => Except.ok (JVal.jerr 2)

/-- Witness for C2 at a concrete two-function all-error chain. -/
theorem transformError_allErrorChain_witness :
    settleTransformError [c2fn1, c2fn2] "u" JVal.jnull (JVal.jerr 0)
        = Outcome.rejected (chainLast [c2fn1, c2fn2] "u" JVal.jnull
            (JVal.jerr 0))
    ∧ (runTransformError [c2fn1, c2fn2] "u" JVal.jnull 0 (JVal.jerr 0)).2
        = List.enumFrom 0 (chainArgs [c2fn1, c2fn2] "u" JVal.jnull
            (JVal.jerr 0)) := by
  have T := transformError_allErrorChain [c2fn1, c2fn2] "u" JVal.jnull
    (JVal.jerr 0) rfl (by simp)
    (by
      intro fn hfn x hx
      simp only [List.mem_cons, List.not_mem_nil, or_false] at hfn
      rcases hfn with rfl | rfl
      · exact ⟨JVal.jerr 1, rfl, rfl⟩
      · exact ⟨JVal.jerr 2, rfl, rfl⟩)
  exact ⟨T.1, T.2.1⟩

/-- C3: when any error transform throws synchronously or its returned
promise rejects during the reduction, the whole operation rejects with
the fresh wrapping `Error` that carries the resolved URL in its message,
and this wrapping error differs from the original failure value. -/
theorem transformError_interruption (fns : List Transform3) (u : String)
    (o v e : JVal)
    (hrun : (runTransformError fns u o 0 v).1 = Except.error e)
    (hv : ∀ s, v ≠ JVal.jchainErr s) :
    settleTransformError fns u o v = Outcome.rejected (JVal.jchainErr u)
    ∧ JVal.jchainErr u ≠ v := by
  refine ⟨?_, ?_⟩
  · simp [settleTransformError, hrun]
  · intro hEq
    exact hv u hEq.symm

/-- Transform used by the C3 witness: throws. -/
def c3throwFn : Transform3 := fun _ _ _ => Except.error (JVal.jerr 7)

/-- Witness for C3 at a concrete chain whose only transform throws. -/
theorem transformError_interruption_witness :
    settleTransformError [c3throwFn] "https://api/x" JVal.jnull (JVal.jerr 0)
        = Outcome.rejected (JVal.jchainErr "https://api/x")
    ∧ JVal.jchainErr "https://api/x" ≠ JVal.jerr 0 :=
  transformError_interruption [c3throwFn] "https://api/x" JVal.jnull
    (JVal.jerr 0) (JVal.jerr 7) rfl (fun _ h => JVal.noConfusion h)

/-- Transform used by the C9 counterexample and witness: would convert
any input into a fresh `Error`. -/
def c9fn : Transform3 := fun _ _ _ => Except.ok (JVal.jerr 99)

/-- Counterexample to C9 as stated: when the failure value reaching the
reducer is not an `Error` instance (here the string `"boom"`, e.g. a
transform that executed `throw "boom"`), the first error transform is
*not* invoked — the trace is empty — and the operation resolves with the
failure value instead of treating it as a propagating error. -/
theorem transformError_initialState_cex :
    (runTransformError [c9fn] "u" JVal.jnull 0 (JVal.jstr "boom")).2 = []
    ∧ settleTransformError [c9fn] "u" JVal.jnull (JVal.jstr "boom")
        = Outcome.resolved (JVal.jstr "boom") :=
  ⟨rfl, rfl⟩

/-- C9 (amended): the reduction starts in the propagating-error state
only when the failure value is an `Error` instance; then the first
transform of a non-empty chain is invoked with the original failure as
its error argument.  A failure value that is not an `Error` instance
starts the reduction in the recovered state: no transform is invoked and
the operation resolves with the value unchanged. -/
theorem transformError_initialState (fns : List Transform3) (u : String)
    (o v : JVal) :
    (instanceofError v = true → ∀ fn rest, fns = fn :: rest →
        ∃ tr, (runTransformError fns u o 0 v).2 = (0, v) :: tr)
    ∧ (instanceofError v = false →
        (runTransformError fns u o 0 v).2 = []
        ∧ settleTransformError fns u o v = Outcome.resolved v) := by
  constructor
  · intro hv fn rest hsplit
    subst hsplit
    rcases hf : fn v u o with e | w
    · exact ⟨[], by simp [runTransformError, hv, hf]⟩
    · exact ⟨(runTransformError rest u o 1 w).2,
        by simp [runTransformError, hv, hf]⟩
  · intro hv
    have hskip := runTransformError_skip fns u o 0 v hv
    refine ⟨by simp [hskip], ?_⟩
    simp [settleTransformError, hskip, hv]

/-- Witness for the amended C9 at a concrete `Error` failure value and a
concrete non-empty chain. -/
theorem transformError_initialState_witness :
    ∃ tr, (runTransformError [c9fn] "u" JVal.jnull 0 (JVal.jerr 0)).2
        = (0, JVal.jerr 0) :: tr :=
  (transformError_initialState [c9fn] "u" JVal.jnull (JVal.jerr 0)).1
    rfl c9fn [] rfl

/-- C4 (amended): failures of the transport call, of the response
interpretation, and of the response transform chain flow into the error
recovery reduction before the operation settles; a URL-construction
failure rejects the operation directly, bypassing the reduction; and a
failure of the request transform chain leaves the operation unsettled
(the rejection of `transformRequestPromise.then(...)` has no handler). -/
theorem fetch_failureRouting (c : Collaborators) (url : String)
    (cfg : Config) :
    (∀ e, runRequestChain (requestChainOf cfg) (JVal.jobj cfg.fields)
          = Except.error e →
        fetchModel c url cfg = Outcome.pending)
    ∧ (∀ topts e,
        runRequestChain (requestChainOf cfg) (JVal.jobj cfg.fields)
          = Except.ok topts →
        c.buildUrl url (paramsOf topts) (noEscapeOf topts) = Except.error e →
        fetchModel c url cfg = Outcome.rejected e)
    ∧ (∀ topts uStr e,
        runRequestChain (requestChainOf cfg) (JVal.jobj cfg.fields)
          = Except.ok topts →
        c.buildUrl url (paramsOf topts) (noEscapeOf topts) = Except.ok uStr →
        c.transport uStr (transportInitOf topts) = Except.error e →
        fetchModel c url cfg
          = settleTransformError (ensureList cfg.transformError) uStr topts e)
    ∧ (∀ topts uStr resp e,
        runRequestChain (requestChainOf cfg) (JVal.jobj cfg.fields)
          = Except.ok topts →
        c.buildUrl url (paramsOf topts) (noEscapeOf topts) = Except.ok uStr →
        c.transport uStr (transportInitOf topts) = Except.ok resp →
        interpretResponse resp = Except.error e →
        fetchModel c url cfg
          = settleTransformError (ensureList cfg.transformError) uStr topts e)
    ∧ (∀ topts uStr resp payload e,
        runRequestChain (requestChainOf cfg) (JVal.jobj cfg.fields)
          = Except.ok topts →
        c.buildUrl url (paramsOf topts) (noEscapeOf topts) = Except.ok uStr →
        c.transport uStr (transportInitOf topts) = Except.ok resp →
        interpretResponse resp = Except.ok payload →
        runResponseChain (ensureList cfg.transformResponse) uStr topts payload
          = Except.error e →
        fetchModel c url cfg
          = settleTransformError (ensureList cfg.transformError) uStr topts
              e) := by
  refine ⟨?_, ?_, ?_, ?_, ?_⟩
  · intro e h1
    simp [fetchModel, h1]
  · intro topts e h1 h2
    simp [fetchModel, h1, h2]
  · intro topts uStr e h1 h2 h3
    simp [fetchModel, h1, h2, h3]
  · intro topts uStr resp e h1 h2 h3 h4
    simp [fetchModel, h1, h2, h3, h4]
  · intro topts uStr resp payload e h1 h2 h3 h4 h5
    simp [fetchModel, h1, h2, h3, h4, h5]

/-- Error transform used by the C4 counterexample: recovers from any
error. -/
def c4recoverFn : Transform3 := fun _ _ _ => Except.ok JVal.jnull

/-- Collaborators for the C4 counterexample: URL construction fails. -/
def c4collab : Collaborators :=
  { buildUrl := fun _ _ _ => Except.error (JVal.jerr 0),
    transport := fun _ _ => Except.error (JVal.jerr 1) }

/-- Configuration for the C4 counterexample: the error chain would
recover. -/
def c4cfg : Config :=
  { fields := [],
    transformRequest := MaybeList.absent,
    transformResponse := MaybeList.absent,
    transformError := MaybeList.one c4recoverFn }

/-- Counterexample to C4 as stated: a URL-construction failure rejects
the operation with the construction error itself even though the
configured `transformError` chain recovers from every error — had the
failure flowed into the error recovery reduction, the operation would
have resolved with `null`. -/
theorem fetch_failureRouting_cex :
    fetchModel c4collab "u" c4cfg = Outcome.rejected (JVal.jerr 0)
    ∧ settleTransformError (ensureList c4cfg.transformError) "u"
        (JVal.jobj []) (JVal.jerr 0) = Outcome.resolved JVal.jnull :=
  ⟨rfl, rfl⟩

/-- Collaborators for the C4 witness: transport fails. -/
def c4wCollab : Collaborators :=
  { buildUrl := fun u _ _ => Except.ok u,
    transport := fun _ _ => Except.error (JVal.jerr 3) }

/-- Configuration for the C4 witness. -/
def c4wCfg : Config :=
  { fields := [],
    transformRequest := MaybeList.absent,
    transformResponse := MaybeList.absent,
    transformError := MaybeList.absent }

/-- Witness for the amended C4 at a concrete transport failure. -/
theorem fetch_failureRouting_witness :
    fetchModel c4wCollab "u" c4wCfg
      = settleTransformError (ensureList c4wCfg.transformError) "u"
          (JVal.jobj []) (JVal.jerr 3) :=
  (fetch_failureRouting c4wCollab "u" c4wCfg).2.2.1 (JVal.jobj []) "u"
    (JVal.jerr 3) (by rfl) (by rfl) (by rfl)

/-- C5: when the response declares `application/json` (portion before the
first `;`) and the JSON decoder fails, an `ok` response recovers with the
`null` placeholder and the interpretation succeeds, while a non-`ok`
response fails with the decode error itself, unwrapped. -/
theorem jsonDecodeFailure_handling (r : RawResponse) (e : JVal)
    (hct : responseContentType r = "application/json")
    (hj : r.jsonResult = Except.error e) :
    (r.ok = true → interpretResponse r = Except.ok JVal.jnull)
    ∧ (r.ok = false → interpretResponse r = Except.error e) := by
  constructor
  · intro hok
    simp [interpretResponse, hct, hj, conditionallyThrowHttpError, hok]
  · intro hok
    simp [interpretResponse, hct, hj, hok]

/-- Response used by the C5 witness: successful status, JSON content
type, failing decoder. -/
def c5resp : RawResponse :=
  { ok := true, status := JVal.jnum 200, statusText := JVal.jstr "OK",
    url := JVal.jstr "u", headers := JVal.jobj [],
    contentTypeGet := some "application/json; charset=utf-8",
    jsonResult := Except.error (JVal.jerr 11),
    textResult := Except.ok (JVal.jstr "") }

/-- Witness for C5 at a concrete `ok` response with a malformed JSON
body. -/
theorem jsonDecodeFailure_handling_witness :
    interpretResponse c5resp = Except.ok JVal.jnull :=
  (jsonDecodeFailure_handling c5resp (JVal.jerr 11) (by rfl) (by rfl)).1 rfl

/-- C6 (amended): a non-`ok` response raises the `HttpError` built from
its status metadata and decoded payload; the error always carries
`status` and `statusText`, carries `url`, `headers` and the payload as
`response` when each is truthy (a falsy one leaves the field unset, see
the companion constructor theorem), and its string form is
`HttpError: <status> <statusText <url>>` with the URL in angle brackets
when present.  An `ok` response passes the decoded payload downstream
unchanged. -/
theorem interpret_httpErrorRaising (r : RawResponse) (payload : JVal)
    (hdec : (if responseContentType r = "application/json" then r.jsonResult
        else r.textResult) = Except.ok payload) :
    (r.ok = false →
        interpretResponse r
            = Except.error (mkHttpError r.status r.statusText r.url r.headers
                payload)
        ∧ httpStatusField (mkHttpError r.status r.statusText r.url r.headers
            payload) = some r.status
        ∧ httpStatusTextField (mkHttpError r.status r.statusText r.url
            r.headers payload) = some r.statusText
        ∧ (truthy r.url = true →
            httpUrlField (mkHttpError r.status r.statusText r.url r.headers
                payload) = some r.url
            ∧ errMessage (mkHttpError r.status r.statusText r.url r.headers
                payload)
              = jsToString r.statusText ++ " <" ++ jsToString r.url ++ ">")
        ∧ jsToString (mkHttpError r.status r.statusText r.url r.headers
              payload)
            = "HttpError: " ++ jsToString r.status ++ " "
              ++ errMessage (mkHttpError r.status r.statusText r.url r.headers
                  payload)
        ∧ (truthy r.headers = true →
            httpHeadersField (mkHttpError r.status r.statusText r.url
                r.headers payload) = some r.headers)
        ∧ (truthy payload = true →
            httpResponseField (mkHttpError r.status r.statusText r.url
                r.headers payload) = some payload))
    ∧ (r.ok = true → interpretResponse r = Except.ok payload) := by
  constructor
  · intro hok
    refine ⟨?_, rfl, rfl, ?_, ?_, ?_, ?_⟩
    · by_cases hct : responseContentType r = "application/json"
      · rw [if_pos hct] at hdec
        simp [interpretResponse, hct, hdec, conditionallyThrowHttpError, hok]
      · rw [if_neg hct] at hdec
        simp [interpretResponse, hct, hdec, conditionallyThrowHttpError, hok]
    · intro hu
      exact ⟨by simp [mkHttpError, httpUrlField, hu],
        by simp [mkHttpError, errMessage, hu]⟩
    · rfl
    · intro hh
      simp [mkHttpError, httpHeadersField, hh]
    · intro hp
      simp [mkHttpError, httpResponseField, hp]
  · intro hok
    by_cases hct : responseContentType r = "application/json"
    · rw [if_pos hct] at hdec
      simp [interpretResponse, hct, hdec, conditionallyThrowHttpError, hok]
    · rw [if_neg hct] at hdec
      simp [interpretResponse, hct, hdec, conditionallyThrowHttpError, hok]

/-- Response used by the C6 counterexample: non-`ok` text response whose
decoded body is the empty string. -/
def c6resp : RawResponse :=
  { ok := false, status := JVal.jnum 404, statusText := JVal.jstr "Not Found",
    url := JVal.jstr "u", headers := JVal.jobj [],
    contentTypeGet := none,
    jsonResult := Except.error (JVal.jerr 0),
    textResult := Except.ok (JVal.jstr "") }

/-- Counterexample to C6 as stated: for a non-`ok` response whose decoded
payload is the empty string, the raised `HttpError` has no `response`
field at all — the decoded payload is *not* stored as its `response`
field. -/
theorem interpret_httpErrorRaising_cex :
    interpretResponse c6resp
      = Except.error (mkHttpError (JVal.jnum 404) (JVal.jstr "Not Found")
          (JVal.jstr "u") (JVal.jobj []) (JVal.jstr ""))
    ∧ httpResponseField (mkHttpError (JVal.jnum 404) (JVal.jstr "Not Found")
        (JVal.jstr "u") (JVal.jobj []) (JVal.jstr ""))
      ≠ some (JVal.jstr "") :=
  ⟨by rfl, fun h => Option.noConfusion h⟩

/-- Response used by the C6 witness: non-`ok` JSON response with a truthy
decoded body. -/
def c6wresp : RawResponse :=
  { ok := false, status := JVal.jnum 404, statusText := JVal.jstr "Not Found",
    url := JVal.jstr "https://api/u",
    headers := JVal.jobj [("h", JVal.jstr "v")],
    contentTypeGet := some "application/json",
    jsonResult := Except.ok (JVal.jobj [("err", JVal.jstr "x")]),
    textResult := Except.ok (JVal.jstr "ignored") }

/-- Witness for the amended C6 at a concrete non-`ok` JSON response. -/
theorem interpret_httpErrorRaising_witness :
    interpretResponse c6wresp
      = Except.error (mkHttpError (JVal.jnum 404) (JVal.jstr "Not Found")
          (JVal.jstr "https://api/u") (JVal.jobj [("h", JVal.jstr "v")])
          (JVal.jobj [("err", JVal.jstr "x")]))
    ∧ jsToString (mkHttpError (JVal.jnum 404) (JVal.jstr "Not Found")
          (JVal.jstr "https://api/u") (JVal.jobj [("h", JVal.jstr "v")])
          (JVal.jobj [("err", JVal.jstr "x")]))
        = "HttpError: 404 Not Found <https://api/u>" := by
  have T := interpret_httpErrorRaising c6wresp
    (JVal.jobj [("err", JVal.jstr "x")]) (by rfl)
  exact ⟨(T.1 rfl).1, by rfl⟩

/-- C7: in the body-serialization step, an options object whose `body`
value is not a string gets its body replaced by the JSON-text
serialization exactly when the effective content type is
`application/json`, `text/plain`, or absent/empty; any other declared
content type leaves the options untouched, and a string body is never
re-serialized. -/
theorem stringifyBody_spec (options : List (String × JVal)) (b : JVal)
    (hb : getField options "body" = some b) :
    (isStringVal b = false →
        ((getContentType options = "application/json"
            ∨ getContentType options = "text/plain"
            ∨ getContentType options = "") →
          stringifyBody options
            = setField options "body" (JVal.jstr (jsonStringify b)))
        ∧ (getContentType options ≠ "application/json" →
            getContentType options ≠ "text/plain" →
            getContentType options ≠ "" →
            stringifyBody options = options))
    ∧ (isStringVal b = true → stringifyBody options = options) := by
  constructor
  · intro hs
    constructor
    · intro hct
      simp only [stringifyBody, hb, hs, Bool.false_eq_true, if_false]
      rcases hct with h | h | h <;> simp [h]
    · intro h1 h2 h3
      simp only [stringifyBody, hb, hs, Bool.false_eq_true, if_false]
      simp [h1, h2, h3]
  · intro hs
    simp [stringifyBody, hb, hs]

/-- Options used by the C7 witness: spec Scenario A. -/
def c7options : List (String × JVal) :=
  [("headers", JVal.jobj [("Content-Type", JVal.jstr "text/plain")]),
   ("body", JVal.jobj [("test", JVal.jstr "value")])]

/-- Witness for C7 at Scenario A: a `text/plain` request with an object
body serializes the body to its JSON text. -/
theorem stringifyBody_spec_witness :
    stringifyBody c7options
      = setField c7options "body"
          (JVal.jstr (jsonStringify (JVal.jobj [("test", JVal.jstr "value")])))
    ∧ jsonStringify (JVal.jobj [("test", JVal.jstr "value")])
        = "\x7b\"test\":\"value\"\x7d" := by
  refine ⟨?_, by rfl⟩
  exact ((stringifyBody_spec c7options (JVal.jobj [("test", JVal.jstr "value")])
    (by rfl)).1 rfl).1 (Or.inr (Or.inl (by rfl)))

/-- C10: the `HttpError` constructor leaves a field unset when its
argument is falsy — a falsy `url` produces no `url` field and a message
equal to the bare `statusText` with no angle-bracketed part, a falsy
`headers` argument produces no `headers` field, and a falsy `response`
payload (such as an empty string body) produces no `response` field. -/
theorem httpError_omitsFalsyFields
    (status statusText url headers response : JVal) :
    (truthy url = false →
        httpUrlField (mkHttpError status statusText url headers response)
            = none
        ∧ errMessage (mkHttpError status statusText url headers response)
            = jsToString statusText)
    ∧ (truthy headers = false →
        httpHeadersField (mkHttpError status statusText url headers response)
          = none)
    ∧ (truthy response = false →
        httpResponseField (mkHttpError status statusText url headers response)
          = none) := by
  refine ⟨fun h => ⟨?_, ?_⟩, fun h => ?_, fun h => ?_⟩ <;>
    simp [mkHttpError, httpUrlField, httpHeadersField, httpResponseField,
      errMessage, h]

/-- Witness for C10 at concrete falsy arguments (empty-string URL, `null`
headers, empty-string payload). -/
theorem httpError_omitsFalsyFields_witness :
    httpUrlField (mkHttpError (JVal.jnum 500) (JVal.jstr "Server Error")
        (JVal.jstr "") JVal.jnull (JVal.jstr "")) = none
    ∧ errMessage (mkHttpError (JVal.jnum 500) (JVal.jstr "Server Error")
        (JVal.jstr "") JVal.jnull (JVal.jstr ""))
      = jsToString (JVal.jstr "Server Error")
    ∧ httpHeadersField (mkHttpError (JVal.jnum 500) (JVal.jstr "Server Error")
        (JVal.jstr "") JVal.jnull (JVal.jstr "")) = none
    ∧ httpResponseField (mkHttpError (JVal.jnum 500) (JVal.jstr "Server Error")
        (JVal.jstr "") JVal.jnull (JVal.jstr "")) = none := by
  have T := httpError_omitsFalsyFields (JVal.jnum 500)
    (JVal.jstr "Server Error") (JVal.jstr "") JVal.jnull (JVal.jstr "")
  exact ⟨(T.1 rfl).1, (T.1 rfl).2, T.2.1 rfl, T.2.2 rfl⟩

/-- Object addresses in the heap model used for the mutation analysis. -/
abbrev Addr := Nat

/-- Heap values: JavaScript primitives or a reference to another
object. -/
inductive HVal where
  | hnull : HVal
  | hbool (b : Bool) : HVal
  | hnum (n : Int) : HVal
  | hstr (s : String) : HVal
  | href (a : Addr) : HVal
deriving DecidableEq, Repr

/-- An object in the heap model: its own enumerable properties. -/
abbrev HObj := List (String × HVal)

/-- The object store: a finite map from addresses to objects. -/
abbrev Store := List (Addr × HObj)

/-- Contents at an address. -/
def storeGet : Store → Addr → Option HObj
  | [], _ => none
  | (a, o) :: rest, b => if a = b then some o else storeGet rest b

/-- Overwrites the object at an address (adds it when absent). -/
def storeWrite : Store → Addr → HObj → Store
  | [], a, o => [(a, o)]
  | (b, p) :: rest, a, o =>
      if b = a then (b, o) :: rest else (b, p) :: storeWrite rest a o

/-- Addresses reachable from a root by following object references: the
subgraph that deep equality of the caller's configuration inspects. -/
inductive Reaches (s : Store) : Addr → Addr → Prop
  | refl (a : Addr) : Reaches s a a
  | step {a b c : Addr} (o : HObj) (k : String)
      (h1 : Reaches s a b) (h2 : storeGet s b = some o)
      (h3 : (k, HVal.href c) ∈ o) : Reaches s a c

/-- The heap activity of one `_fetch` invocation after the entry
`clone(options)` (`src/index.js:85-97`): every pipeline stage — the user
transforms, the built-in copy-on-write steps, and the reducers — either
allocates a fresh object or writes to an object it can access, namely one
reachable from the clone or allocated during this invocation (the `acc`
list).  No stage holds a reference into the caller's original
configuration, since the clone collaborator copies the whole subgraph
into fresh addresses. -/
inductive PipelineRun : Store → List Addr → Store → List Addr → Prop
  | done (s : Store) (acc : List Addr) : PipelineRun s acc s acc
  | write (s : Store) (acc : List Addr) (s2 : Store) (acc2 : List Addr)
      (b : Addr) (o : HObj) (hb : b ∈ acc)
      (hrest : PipelineRun (storeWrite s b o) acc s2 acc2) :
      PipelineRun s acc s2 acc2
  | alloc (s : Store) (acc : List Addr) (s2 : Store) (acc2 : List Addr)
      (b : Addr) (o : HObj) (hb : storeGet s b = none)
      (hrest : PipelineRun (storeWrite s b o) (b :: acc) s2 acc2) :
      PipelineRun s acc s2 acc2

/-- Writing elsewhere leaves an address unchanged. -/
theorem storeGet_write_ne (s : Store) (b : Addr) (o : HObj) (a : Addr)
    (h : a ≠ b) : storeGet (storeWrite s b o) a = storeGet s a := by
  have hba : ¬ b = a := fun hba => h hba.symm
  induction s with
  | nil => simp [storeWrite, storeGet, hba]
  | cons hd rest ih =>
      rcases hd with ⟨c, p⟩
      by_cases hcb : c = b
      · subst hcb
        simp [storeWrite, storeGet, hba]
      · simp [storeWrite, storeGet, hcb, ih]

/-- Frame property of a pipeline run: addresses in a region that is
allocated and disjoint from the accessible set keep their contents. -/
theorem pipelineRun_frame (R : Addr → Prop) :
    ∀ {s : Store} {acc : List Addr} {sF : Store} {accF : List Addr},
      PipelineRun s acc sF accF →
      (∀ a, R a → storeGet s a ≠ none) →
      (∀ a, R a → a ∉ acc) →
      ∀ a, R a → storeGet sF a = storeGet s a := by
  intro s acc sF accF run
  induction run with
  | done s acc => intro _ _ a _; rfl
  | write s acc s2 acc2 b o hb hrest ih =>
      intro hdom hdisj a ha
      have hne : a ≠ b := fun hab => hdisj a ha (hab ▸ hb)
      have hd2 : ∀ x, R x → storeGet (storeWrite s b o) x ≠ none := by
        intro x hx
        have hxb : x ≠ b := fun hxb => hdisj x hx (hxb ▸ hb)
        rw [storeGet_write_ne s b o x hxb]
        exact hdom x hx
      have hfinal := ih hd2 hdisj a ha
      rw [hfinal, storeGet_write_ne s b o a hne]
  | alloc s acc s2 acc2 b o hb hrest ih =>
      intro hdom hdisj a ha
      have hne : a ≠ b := fun hab => hdom a ha (hab ▸ hb)
      have hd2 : ∀ x, R x → storeGet (storeWrite s b o) x ≠ none := by
        intro x hx
        have hxb : x ≠ b := fun hxb => hdom x hx (hxb ▸ hb)
        rw [storeGet_write_ne s b o x hxb]
        exact hdom x hx
      have ha2 : ∀ x, R x → x ∉ b :: acc := by
        intro x hx
        simp only [List.mem_cons, not_or]
        exact ⟨fun hxb => hdom x hx (hxb ▸ hb), hdisj x hx⟩
      have hfinal := ih hd2 ha2 a ha
      rw [hfinal, storeGet_write_ne s b o a hne]

/-- C8: the caller's `RequestConfig` is deeply unchanged by an
invocation.  Hypotheses: the configuration's object graph is allocated
(`hwf`), and — the contract of the `clone` collaborator invoked at
pipeline entry — no address reachable from the caller's root is in the
invocation's accessible set (`hclone`).  Conclusion: after any pipeline
activity, every address reachable from the caller's root holds exactly
the object it held before (deep equality of the whole configuration),
and the reachable subgraph itself is unchanged. -/
theorem requestConfig_notMutated (s0 : Store) (root : Addr)
    (acc0 : List Addr) (sF : Store) (accF : List Addr)
    (hwf : ∀ a, Reaches s0 root a → storeGet s0 a ≠ none)
    (hclone : ∀ a, Reaches s0 root a → a ∉ acc0)
    (run : PipelineRun s0 acc0 sF accF) :
    (∀ a, Reaches s0 root a → storeGet sF a = storeGet s0 a)
    ∧ (∀ a, Reaches sF root a ↔ Reaches s0 root a) := by
  have hkeep := pipelineRun_frame (Reaches s0 root) run hwf hclone
  refine ⟨hkeep, fun a => ⟨?_, ?_⟩⟩
  · intro h
    induction h with
    | refl => exact Reaches.refl root
    | step o k h1 h2 h3 ih =>
        rw [hkeep _ ih] at h2
        exact Reaches.step o k ih h2 h3
  · intro h
    induction h with
    | refl => exact Reaches.refl root
    | step o k h1 h2 h3 ih =>
        refine Reaches.step o k ih ?_ h3
        rw [hkeep _ h1]
        exact h2

/-- Store for the C8 witness: the caller's configuration at address `0`
and its clone at address `1`. -/
def c8store : Store := [(0, [("x", HVal.hnum 1)]), (1, [("x", HVal.hnum 1)])]

/-- In the C8 witness store only the root itself is reachable from the
caller's configuration. -/
theorem c8reachesRoot (a : Addr) (h : Reaches c8store 0 a) : a = 0 := by
  induction h with
  | refl => rfl
  | step o k h1 h2 h3 ih =>
      subst ih
      simp [c8store, storeGet] at h2
      subst h2
      simp at h3

/-- Witness for C8: a run that mutates the clone (address `1`) leaves
the caller's object at address `0` untouched. -/
theorem requestConfig_notMutated_witness :
    storeGet (storeWrite c8store 1 [("x", HVal.hnum 2)]) 0
      = storeGet c8store 0 :=
  (requestConfig_notMutated c8store 0 [1]
      (storeWrite c8store 1 [("x", HVal.hnum 2)]) [1]
      (fun a h => by rw [c8reachesRoot a h]; simp [c8store, storeGet])
      (fun a h => by rw [c8reachesRoot a h]; simp)
      (PipelineRun.write c8store [1] _ _ 1 [("x", HVal.hnum 2)] (by simp)
        (PipelineRun.done _ _))).1
    0 (Reaches.refl 0)
